import Mathlib

/-!
A shallow embedding of the session lifecycle and delivery engine of
`src/bot.py` (VaultBot): the staging buffer, the session finalizer
(`receive_autodel_minutes`), the access resolver and delivery loop of
`cmd_start`, and the deferred delete-job scheduler
(`execute_delete_job`, `restore_pending_jobs_and_schedule`).

Pure data is translated directly; the messenger transport is modelled by
explicit success/failure oracles at each call site, and the SQLite store
is modelled as in-memory tables with auto-increment counters.
-/

namespace VaultBot

/-! ### Environment constants (src/bot.py lines 82-83) -/

def MIN_AUTO_DELETE : ℤ := 0

def MAX_AUTO_DELETE : ℤ := 10080

/-! ### Python truthiness helpers -/

/-- Truthiness of an optional string (`None` and `""` are falsy). -/
def truthyStr : Option String → Bool
  | none => false
  | some s => s ≠ ""

/-- Truthiness of an optional integer (`None` and `0` are falsy). -/
def truthyOptInt : Option Int → Bool
  | none => false
  | some i => i ≠ 0

/-- Python `x or None` applied to an int field (0 becomes NULL),
as in `add_file_sync` (src/bot.py line 241). -/
def intOrNone (i : Int) : Option Int := if i = 0 then none else some i

/-! ### ORM rows (src/bot.py lines 122-155) -/

/-- A row of the `sessions` table (`SessionModel`). -/
structure SessionRow where
  id : Nat
  owner_id : Int
  created_at : Int
  protect : Bool
  auto_delete_minutes : Int
  title : String
  revoked : Bool
  header_msg_id : Option Int
  header_chat_id : Option Int
  deep_link : String
deriving Repr, DecidableEq

/-- A row of the `files` table (`FileModel`). -/
structure FileRow where
  id : Nat
  session_id : Nat
  file_type : String
  file_id : String
  caption : String
  original_msg_id : Option Int
  vault_msg_id : Option Int
deriving Repr, DecidableEq

/-- A row of the `delete_jobs` table (`DeleteJob`); `message_ids` is the
decoded JSON array. -/
structure DeleteJobRow where
  id : Nat
  session_id : Option Nat
  target_chat_id : Int
  message_ids : List Int
  run_at : Int
  status : String
deriving Repr, DecidableEq

/-- The SQLite store: the three tables relevant to the core, with
auto-increment primary-key counters. -/
structure DB where
  sessions : List SessionRow
  files : List FileRow
  delete_jobs : List DeleteJobRow
  next_session_id : Nat
  next_file_id : Nat
  next_job_id : Nat
deriving Repr, DecidableEq

def DB.empty : DB := ⟨[], [], [], 1, 1, 1⟩

/-! ### DB sync helpers (src/bot.py lines 232-287) -/

/-- `insert_session_sync` (src/bot.py lines 232-237): inserts a session row
and returns its auto-increment integer primary key. -/
def insert_session_sync (db : DB) (owner_id : Int) (protect : Bool)
    (auto_delete_minutes : Int) (title : String) (header_chat_id : Int)
    (header_msg_id : Int) (deep_link : String) (now : Int) : DB × Nat :=
  let sid := db.next_session_id
  ({ db with
      sessions := db.sessions ++
        [⟨sid, owner_id, now, protect, auto_delete_minutes, title, false,
          some header_msg_id, some header_chat_id, deep_link⟩],
      next_session_id := sid + 1 }, sid)

/-- `add_file_sync` (src/bot.py lines 239-244): inserts a file row and
returns its auto-increment id.  `original_msg_id or None` and
`vault_msg_id or None` turn 0 into NULL. -/
def add_file_sync (db : DB) (session_id : Nat) (file_type : String)
    (file_id : String) (caption : String) (original_msg_id : Int)
    (vault_msg_id : Int) : DB × Nat :=
  let fid := db.next_file_id
  ({ db with
      files := db.files ++
        [⟨fid, session_id, file_type, file_id, caption,
          intOrNone original_msg_id, intOrNone vault_msg_id⟩],
      next_file_id := fid + 1 }, fid)

/-- Insertion by ascending `id`, used to express SQL `ORDER BY FileModel.id`. -/
def insertById (f : FileRow) : List FileRow → List FileRow
  | [] => [f]
  | g :: gs => if f.id ≤ g.id then f :: g :: gs else g :: insertById f gs

/-- Sort a list of file rows by ascending `id` (SQL `ORDER BY FileModel.id`). -/
def orderByFileId : List FileRow → List FileRow
  | [] => []
  | f :: fs => insertById f (orderByFileId fs)

/-- `get_session_files_sync` (src/bot.py lines 258-261): the files of a
session, ordered by ascending row id. -/
def get_session_files_sync (db : DB) (session_id : Nat) : List FileRow :=
  orderByFileId (db.files.filter (fun f => f.session_id == session_id))

/-- `add_delete_job_sync` (src/bot.py lines 270-275). -/
def add_delete_job_sync (db : DB) (session_id : Option Nat)
    (target_chat_id : Int) (message_ids : List Int) (run_at : Int)
    (now : Int) : DB × Nat :=
  let jid := db.next_job_id
  ({ db with
      delete_jobs := db.delete_jobs ++
        [{ id := jid, session_id := session_id,
           target_chat_id := target_chat_id, message_ids := message_ids,
           run_at := run_at, status := "scheduled" }],
      next_job_id := jid + 1 }, now) |> fun p => (p.1, jid)

/-- `list_pending_jobs_sync` (src/bot.py lines 277-280): rows with
status `scheduled`. -/
def list_pending_jobs_sync (db : DB) : List DeleteJobRow :=
  db.delete_jobs.filter (fun j => j.status == "scheduled")

/-- `mark_job_done_sync` (src/bot.py lines 282-287): sets the row with the
given primary key to status `done`. -/
def mark_job_done_sync (db : DB) (job_id : Nat) : DB :=
  { db with
      delete_jobs := db.delete_jobs.map (fun j =>
        if j.id == job_id then { j with status := "done" } else j) }

/-- `update_deeplink_sync` (nested in `receive_autodel_minutes`,
src/bot.py lines 875-882). -/
def update_deeplink_sync (db : DB) (sid : Nat) (deeplink : String)
    (hm : Int) (hc : Int) : DB :=
  { db with
      sessions := db.sessions.map (fun s =>
        if s.id == sid then
          { s with deep_link := deeplink, header_msg_id := some hm,
                   header_chat_id := some hc }
        else s) }

/-! ### Staging buffer (src/bot.py lines 583-597) -/

/-- A staged Telegram message, holding the fields the finalize loop reads.
`photo` is the file id of the largest photo size when present. -/
structure StagedMsg where
  message_id : Int
  chat_id : Int
  text : Option String
  caption : Option String
  photo : Option String
  video : Option String
  document : Option String
deriving Repr, DecidableEq

/-- One entry of `active_uploads`: the in-memory upload session dict.
`finalize_requested` and `protect_choice` model the `_finalize_requested`
and `_protect_choice` keys added later (absent at creation). -/
structure UploadSession where
  messages : List StagedMsg
  exclude_text : Bool
  created_at : Int
  finalize_requested : Bool
  protect_choice : Option Int
deriving Repr, DecidableEq

/-- The `active_uploads` dict keyed by operator id, as an association
list with first-match lookup. -/
abbrev Uploads := List (Int × UploadSession)

def dictGet (m : Uploads) (k : Int) : Option UploadSession :=
  (m.find? (fun p => p.1 == k)).map (·.2)

def dictSet (m : Uploads) (k : Int) (v : UploadSession) : Uploads :=
  (k, v) :: m.filter (fun p => p.1 != k)

def dictPop (m : Uploads) (k : Int) : Uploads :=
  m.filter (fun p => p.1 != k)

/-- `start_upload_session` (src/bot.py lines 585-586): unconditionally
replaces the operator's entry with a fresh empty buffer. -/
def start_upload_session (uploads : Uploads) (owner_id : Int)
    (exclude_text : Bool) (now : Int) : Uploads :=
  dictSet uploads owner_id
    { messages := [], exclude_text := exclude_text, created_at := now,
      finalize_requested := false, protect_choice := none }

/-- `cancel_upload_session` (src/bot.py lines 588-589). -/
def cancel_upload_session (uploads : Uploads) (owner_id : Int) : Uploads :=
  dictPop uploads owner_id

/-- `append_upload_message` (src/bot.py lines 591-594): if the operator has
no active buffer the function returns with no effect and no error signal;
otherwise the message is appended. -/
def append_upload_message (uploads : Uploads) (owner_id : Int)
    (msg : StagedMsg) : Uploads :=
  match dictGet uploads owner_id with
  | none => uploads
  | some u =>
      dictSet uploads owner_id { u with messages := u.messages ++ [msg] }

/-- `get_upload_messages` (src/bot.py lines 596-597). -/
def get_upload_messages (uploads : Uploads) (owner_id : Int) :
    List StagedMsg :=
  match dictGet uploads owner_id with
  | none => []
  | some u => u.messages

/-! ### Minutes parsing in `receive_autodel_minutes`
  (src/bot.py lines 811-818) -/

/-- Python `int(x)` on a finite float value, represented exactly as a
rational: truncation toward zero. -/
def truncTowardZero (q : ℚ) : ℤ := q.num.tdiv q.den

/-- The retention-input validation of `receive_autodel_minutes`
(src/bot.py lines 811-818).  The input is abstracted to the value of
`float(m.text.strip())`: `none` when that call raises (or yields a
non-finite value, so `int` raises), otherwise the exact rational value of
the finite float.  Returns the accepted minutes, or `none` when the
handler replies with the re-prompt and returns. -/
def receive_autodel_minutes_parse (parsed : Option ℚ) : Option ℤ :=
  match parsed with
  | none => none
  | some q =>
      let mins := truncTowardZero q
      if mins < MIN_AUTO_DELETE ∨ mins > MAX_AUTO_DELETE then none
      else some mins

/-! ### Deep link minting (src/bot.py line 843) -/

/-- The access link built at finalize:
`f"https://t.me/{me.username}?start={session_id}"`.  The start payload is
the decimal rendering of the internal sequential session id. -/
def deep_link_for (bot_username : String) (session_id : Nat) : String :=
  "https://t.me/" ++ bot_username ++ "?start=" ++ toString session_id

/-- The `/start` payload parse (src/bot.py line 644): `int(args)`. -/
def parse_start_payload (s : String) : Option Nat := s.toNat?

/-! ### The finalize flow of `receive_autodel_minutes`
  (src/bot.py lines 808-895) -/

/-- Observable events of one run of the finalize handler, in order. -/
inductive FinEvent where
  | replyInvalidMinutes
  | replyNoUpload
  | replyNoChannel
  | replyChannelNotFound
  | sendHeader
  | insertSession (sid : Nat)
  | editHeader
  | copyItem (idx : Nat)
  | addFile (idx : Nat) (fid : Nat)
  | updateDeepLink
  | backupDb
  | clearBuffer
  | replyFinalized
deriving Repr, DecidableEq

/-- Events that mutate the persistent store. -/
def FinEvent.isDbMutation : FinEvent → Bool
  | .insertSession _ => true
  | .addFile _ _ => true
  | .updateDeepLink => true
  | _ => false

/-- How the finalize loop body (src/bot.py lines 848-874) treats one
staged message: skipped as a command, or vaulted as text / photo /
video / document / copied as other. -/
inductive ItemAction where
  | skip
  | sendText (txt : String)
  | sendPhoto (fid : String) (cap : String)
  | sendVideo (fid : String) (cap : String)
  | sendDocument (fid : String) (cap : String)
  | copyOther (cap : String)
deriving Repr, DecidableEq

/-- The branch structure of the loop body (src/bot.py lines 850-870). -/
def classify_item (exclude_text : Bool) (msg : StagedMsg) : ItemAction :=
  if truthyStr msg.text && (msg.text.getD "").trim.startsWith "/" then
    .skip
  else if truthyStr msg.text && !exclude_text &&
      !(truthyStr msg.photo || truthyStr msg.video ||
        truthyStr msg.document) then
    .sendText (msg.text.getD "")
  else if truthyStr msg.photo then
    .sendPhoto (msg.photo.getD "") (msg.caption.getD "")
  else if truthyStr msg.video then
    .sendVideo (msg.video.getD "") (msg.caption.getD "")
  else if truthyStr msg.document then
    .sendDocument (msg.document.getD "") (msg.caption.getD "")
  else
    .copyOther (msg.caption.getD "")

/-- The `(file_type, file_id, caption)` triple passed to `add_file` for a
non-skipped item (src/bot.py lines 852-870). -/
def itemFields : ItemAction → String × String × String
  | .skip => ("", "", "")
  | .sendText txt => ("text", "", txt)
  | .sendPhoto fid cap => ("photo", fid, cap)
  | .sendVideo fid cap => ("video", fid, cap)
  | .sendDocument fid cap => ("document", fid, cap)
  | .copyOther cap => ("other", "", cap)

/-- Success/failure oracle for the external calls made by one finalize
run.  `copy_ok i` is whether the vault send/copy for item `i` succeeds;
`addfile_ok i` whether the following `add_file` store insert succeeds
(its failure is caught by the per-item handler at src/bot.py line 873). -/
structure FinalizeOracle where
  header_ok : Bool
  insert_ok : Bool
  copy_ok : List Bool
  addfile_ok : List Bool
  update_ok : Bool
deriving Repr, DecidableEq

/-- The per-item loop of the finalize handler (src/bot.py lines 848-874):
each non-command item is sent/copied into the vault channel and, on
success, recorded with `add_file`; any per-item failure is logged and the
item skipped.  `vmsg` is the next message id minted by the vault channel.
Returns the updated store, the next vault message id, and the events. -/
def finalize_items : DB → Nat → Bool → List StagedMsg → Nat → Int →
    List Bool → List Bool → DB × Int × List FinEvent
  | db, _, _, [], _, vmsg, _, _ => (db, vmsg, [])
  | db, sid, ex, msg :: rest, idx, vmsg, cok, aok =>
      let act := classify_item ex msg
      if act = ItemAction.skip then
        let r := finalize_items db sid ex rest (idx + 1) vmsg cok.tail aok.tail
        (r.1, r.2.1, r.2.2)
      else if cok.headD true then
        if aok.headD true then
          let fields := itemFields act
          let ins :=
            add_file_sync db sid fields.1 fields.2.1 fields.2.2
              msg.message_id vmsg
          let r :=
            finalize_items ins.1 sid ex rest (idx + 1) (vmsg + 1)
              cok.tail aok.tail
          (r.1, r.2.1, FinEvent.copyItem idx :: FinEvent.addFile idx ins.2 :: r.2.2)
        else
          let r :=
            finalize_items db sid ex rest (idx + 1) (vmsg + 1)
              cok.tail aok.tail
          (r.1, r.2.1, FinEvent.copyItem idx :: r.2.2)
      else
        let r := finalize_items db sid ex rest (idx + 1) vmsg cok.tail aok.tail
        (r.1, r.2.1, r.2.2)

/-- The result of one run of the finalize handler. -/
structure FinalizeResult where
  db : DB
  uploads : Uploads
  events : List FinEvent
deriving Repr, DecidableEq

/-- `receive_autodel_minutes` (src/bot.py lines 808-895), the session
finalizer.  Parameters: the parsed retention input, the in-memory upload
dict, the operator id, the store, the configured upload channel (already
resolved; `None`/0 are falsy), the bot username, the current time, the
message id the vault channel will assign to the header message, and the
failure oracle. -/
def receive_autodel_minutes (parsed : Option ℚ) (uploads : Uploads)
    (owner_id : Int) (db : DB) (upload_channel : Option Int)
    (bot_username : String) (now : Int) (vmsg0 : Int)
    (oracle : FinalizeOracle) : FinalizeResult :=
  match receive_autodel_minutes_parse parsed with
  | none => ⟨db, uploads, [.replyInvalidMinutes]⟩
  | some mins =>
    match dictGet uploads owner_id with
    | none => ⟨db, uploads, [.replyNoUpload]⟩
    | some upload =>
      if !truthyOptInt upload_channel then ⟨db, uploads, [.replyNoChannel]⟩
      else
        let ch := upload_channel.getD 0
        if !oracle.header_ok then ⟨db, uploads, [.replyChannelNotFound]⟩
        else
          let header_msg_id := vmsg0
          if !oracle.insert_ok then ⟨db, uploads, [.sendHeader]⟩
          else
            let protect := (upload.protect_choice.getD 0) ≠ 0
            let ins :=
              insert_session_sync db owner_id protect mins "Untitled" ch
                header_msg_id "" now
            let sid := ins.2
            let deep_link := deep_link_for bot_username sid
            let items :=
              finalize_items ins.1 sid upload.exclude_text upload.messages 0
                (vmsg0 + 1) oracle.copy_ok oracle.addfile_ok
            let evs :=
              [.sendHeader, .insertSession sid, .editHeader] ++ items.2.2
            if !oracle.update_ok then ⟨items.1, uploads, evs⟩
            else
              let db3 :=
                update_deeplink_sync items.1 sid deep_link header_msg_id ch
              ⟨db3, cancel_upload_session uploads owner_id,
                evs ++ [.updateDeepLink, .backupDb, .clearBuffer,
                        .replyFinalized]⟩

/-! ### Membership gate of `cmd_start` (src/bot.py lines 652-691) -/

/-- Outcome of `bot.get_chat_member(resolved, user_id)` for one forced
channel, as observed by the handler. -/
inductive MemberLookup where
  | member (status : String)
  | badRequest
  | chatNotFound
  | otherError
deriving Repr, DecidableEq

/-- Outcome of `resolve_channel_link` plus the membership lookup for one
configured forced channel. -/
inductive ChanOutcome where
  | resolved (lk : MemberLookup)
  | unresolvable
deriving Repr, DecidableEq

/-- A channel check whose answer is indeterminate: the channel could not
be resolved, or the membership lookup errored. -/
def ChanOutcome.indeterminate : ChanOutcome → Bool
  | .unresolvable => true
  | .resolved .chatNotFound => true
  | .resolved .otherError => true
  | _ => false

/-- Result of the forced-channel gate in `cmd_start`. -/
inductive GateResult where
  | pass
  | mustJoin
  | unverifiable
deriving Repr, DecidableEq

/-- The scan over forced channels (src/bot.py lines 658-677): a confirmed
non-member or a `BadRequest` sets `blocked` and breaks; an unresolvable
channel or a lookup error is appended to `unresolved`.  `unres` carries
whether `unresolved` is non-empty so far. -/
def gate_scan : List ChanOutcome → Bool → GateResult
  | [], unres => if unres then .unverifiable else .pass
  | c :: rest, unres =>
      match c with
      | .unresolvable => gate_scan rest true
      | .resolved .badRequest => .mustJoin
      | .resolved .chatNotFound => gate_scan rest true
      | .resolved .otherError => gate_scan rest true
      | .resolved (.member st) =>
          if st == "left" || st == "kicked" then .mustJoin
          else gate_scan rest unres

/-- The forced-channel gate of `cmd_start` (src/bot.py lines 652-691):
only the first three configured channels are checked (`forced[:3]`);
`blocked` yields the must-join reply, a non-empty `unresolved` the
could-not-verify reply; both replies carry a Retry button and deliver
nothing. -/
def forced_gate (chans : List ChanOutcome) : GateResult :=
  gate_scan (chans.take 3) false

/-! ### Per-file delivery in `cmd_start` (src/bot.py lines 692-746) -/

/-- The transport call that actually delivered a file to the requester. -/
inductive SendKind where
  | sendMessage
  | copyVault
  | sendPhoto
  | sendVideo
  | sendDocument
deriving Repr, DecidableEq

/-- A message delivered to the requester chat: which send path produced
it, whether `protect_content` was set on it, and the payload provenance. -/
structure SentMsg where
  kind : SendKind
  protect_content : Bool
  caption : String
  orig : Option Int
deriving Repr, DecidableEq

/-- One iteration of the delivery loop (src/bot.py lines 706-744).
`requester_id` is `message.from_user.id`, `session_owner` the session
row's `owner_id`, `protect_flag` the session's protect flag,
`vault_chat_id` the resolved vault channel and `copy_ok` whether the
vault `copy_message` call succeeds (on failure the handler falls back to
re-sending by raw file id).  Text rows are sent with `send_message`; the
fallback sends pass no `protect_content` argument. -/
def deliver_file (requester_id : Int) (session_owner : Int)
    (protect_flag : Bool) (vault_chat_id : Option Int) (copy_ok : Bool)
    (f : FileRow) : SentMsg :=
  let owner_is_requester := requester_id == session_owner
  if f.file_type == "text" then
    ⟨.sendMessage, false, f.caption, f.original_msg_id⟩
  else
    let protect_content_value := protect_flag && !owner_is_requester
    if truthyOptInt vault_chat_id && truthyOptInt f.vault_msg_id &&
        copy_ok then
      ⟨.copyVault, protect_content_value, f.caption, f.original_msg_id⟩
    else if f.file_type == "photo" then
      ⟨.sendPhoto, false, f.caption, f.original_msg_id⟩
    else if f.file_type == "video" then
      ⟨.sendVideo, false, f.caption, f.original_msg_id⟩
    else if f.file_type == "document" then
      ⟨.sendDocument, false, f.caption, f.original_msg_id⟩
    else
      ⟨.sendMessage, false, f.caption, f.original_msg_id⟩

/-- The delivery loop `for f in files` (src/bot.py lines 706-746), with a
per-file oracle for the vault copy call. -/
def deliver_session_files (requester_id : Int) (session_owner : Int)
    (protect_flag : Bool) (vault_chat_id : Option Int) :
    List Bool → List FileRow → List SentMsg
  | _, [] => []
  | oks, f :: fs =>
      deliver_file requester_id session_owner protect_flag vault_chat_id
          (oks.headD true) f ::
        deliver_session_files requester_id session_owner protect_flag
          vault_chat_id oks.tail fs

/-- The gate-then-deliver portion of `cmd_start` for a resolved,
non-revoked session: files are delivered only when the gate passes. -/
def cmd_start_gate_deliver (chans : List ChanOutcome) (requester_id : Int)
    (session_owner : Int) (protect_flag : Bool)
    (vault_chat_id : Option Int) (oks : List Bool) (files : List FileRow) :
    GateResult × List SentMsg :=
  match forced_gate chans with
  | .pass =>
      (.pass,
        deliver_session_files requester_id session_owner protect_flag
          vault_chat_id oks files)
  | g => (g, [])

/-! ### Deferred delete jobs (src/bot.py lines 518-563) -/

/-- The mutable world acted on by the delete-job executor: the store, the
messages currently present in each chat (association list keyed by chat
id), and the armed in-process scheduler job ids. -/
structure BotState where
  db : DB
  chats : List (Int × List Int)
  timers : List String
deriving Repr, DecidableEq

/-- `execute_delete_job` (src/bot.py lines 518-548): for each listed
message id, a best-effort `delete_message` is attempted (a missing
message raises `MessageToDeleteNotFound`, which is swallowed); then the
row is marked done and the armed timer, if any, removed.  The persisted
status is never consulted.  Returns the new state and the list of
`(chat, message_id)` delete attempts issued to the transport. -/
def execute_delete_job (st : BotState) (job_id : Nat)
    (row : DeleteJobRow) : BotState × List (Int × Int) :=
  let target := row.target_chat_id
  let chats := st.chats.map (fun p =>
    if p.1 == target then
      (p.1, p.2.filter (fun m => !row.message_ids.contains m))
    else p)
  let db := mark_job_done_sync st.db job_id
  let timers := st.timers.filter (fun t => t != "deljob_" ++ toString job_id)
  (⟨db, chats, timers⟩, row.message_ids.map (fun mid => (target, mid)))

/-- One action taken by startup recovery for a pending job. -/
inductive RecoveryAction where
  | executeNow (job_id : Nat)
  | rearm (job_id : Nat) (run_at : Int)
deriving Repr, DecidableEq

/-- `restore_pending_jobs_and_schedule` (src/bot.py lines 550-563): every
persisted row with status `scheduled` is loaded; one whose `run_at` is
not in the future is executed immediately as a task, any other is
re-armed with the scheduler at its `run_at`. -/
def restore_pending_jobs_and_schedule (now : Int) (db : DB) :
    List RecoveryAction :=
  (list_pending_jobs_sync db).map (fun j =>
    if j.run_at ≤ now then .executeNow j.id else .rearm j.id j.run_at)

/-! ### Spec-side contract for `append` (spec §4.1), for refinement
  comparison with `append_upload_message` -/

inductive AppendError where
  | noActiveBuffer
  | itemExcluded
deriving Repr, DecidableEq

/-- Modelled from the spec (§4.1): `append(operatorId, item) ->
Result<position>` fails with `NoActiveBuffer` if no buffer exists.  This
is the contract the claim asserts, stated for comparison with the
source's `append_upload_message`. -/
def append_spec (uploads : Uploads) (owner_id : Int) (msg : StagedMsg) :
    Except AppendError (Uploads × Nat) :=
  match dictGet uploads owner_id with
  | none => .error .noActiveBuffer
  | some u =>
      if u.exclude_text && truthyStr msg.text &&
          !(truthyStr msg.photo || truthyStr msg.video ||
            truthyStr msg.document) then
        .error .itemExcluded
      else
        .ok (dictSet uploads owner_id
              { u with messages := u.messages ++ [msg] },
            u.messages.length)

/-! ### Derived notions used by the statements -/

/-- The staged items the finalize loop actually records, in staged order:
non-command items whose vault copy and whose `add_file` insert both
succeed.  Mirrors the control flow of `finalize_items`. -/
def successfulStaged (ex : Bool) :
    List StagedMsg → List Bool → List Bool → List StagedMsg
  | [], _, _ => []
  | m :: rest, cok, aok =>
      if classify_item ex m = ItemAction.skip then
        successfulStaged ex rest cok.tail aok.tail
      else if cok.headD true && aok.headD true then
        m :: successfulStaged ex rest cok.tail aok.tail
      else
        successfulStaged ex rest cok.tail aok.tail

/-- Store well-formedness: file rows sorted by their auto-increment id,
ids below the counter, and no file row referencing a not-yet-allocated
session id.  Guaranteed by construction of the store. -/
def DBwf (db : DB) : Prop :=
  db.files.Pairwise (fun a b => a.id < b.id) ∧
  (∀ f ∈ db.files, f.id < db.next_file_id) ∧
  (∀ f ∈ db.files, f.session_id < db.next_session_id)

instance (db : DB) : Decidable (DBwf db) := by
  unfold DBwf; infer_instance

/-- `restore_pending_jobs_and_schedule` as a function of the jobs table
alone (`restore_pending_jobs_and_schedule now db = recovery_actions now
db.delete_jobs` holds by definition). -/
def recovery_actions (now : Int) (l : List DeleteJobRow) :
    List RecoveryAction :=
  (l.filter (fun j => j.status == "scheduled")).map (fun j =>
    if j.run_at ≤ now then .executeNow j.id else .rearm j.id j.run_at)

/-! ### Concrete fixtures for counterexamples and witnesses -/

/-- A staged photo message. -/
def msgPhotoEx : StagedMsg := ⟨11, 99, none, some "cap", some "ph1", none, none⟩

/-- A staged plain-text message. -/
def msgTextEx : StagedMsg := ⟨12, 99, some "hello", none, none, none, none⟩

/-- An upload buffer holding one photo, finalize requested, protect on. -/
def uploadEx : UploadSession := ⟨[msgPhotoEx], false, 0, true, some 1⟩

/-- An all-success finalize oracle for a one-item buffer. -/
def oracleEx : FinalizeOracle := ⟨true, true, [true], [true], true⟩

/-- One full successful finalize run from an empty store. -/
def finalizeEx : FinalizeResult :=
  receive_autodel_minutes (some (mkRat 5 1)) [(7, uploadEx)] 7 DB.empty
    (some 500) "mybot" 0 1000 oracleEx

/-- A second finalize run on the store produced by `finalizeEx`. -/
def finalizeEx2 : FinalizeResult :=
  receive_autodel_minutes (some (mkRat 5 1)) [(7, uploadEx)] 7 finalizeEx.db
    (some 500) "mybot" 0 2000 oracleEx

/-- An oracle in which the `add_file` store insert for item 0 fails. -/
def oracleAddFailEx : FinalizeOracle := ⟨true, true, [true], [false], true⟩

/-- A finalize run in which persisting the only File row fails. -/
def finalizeAddFailEx : FinalizeResult :=
  receive_autodel_minutes (some (mkRat 5 1)) [(7, uploadEx)] 7 DB.empty
    (some 500) "mybot" 0 1000 oracleAddFailEx

/-- A persisted delete job already marked done. -/
def jobRowEx : DeleteJobRow := ⟨1, some 1, 5, [10], 100, "done"⟩

/-- A world in which `jobRowEx` is persisted as done and its target
message still exists in chat 5. -/
def botStateEx : BotState :=
  ⟨{ DB.empty with delete_jobs := [jobRowEx] }, [(5, [10])], []⟩

/-- A stored text file row of a protect-enabled session. -/
def fileTextEx : FileRow := ⟨1, 1, "text", "", "hello", some 5, some 50⟩

/-- A jobs table with one overdue and one future scheduled job. -/
def dbJobsEx : DB :=
  { DB.empty with
      delete_jobs :=
        [⟨1, some 1, 5, [10, 11], 50, "scheduled"⟩,
         ⟨2, some 2, 6, [20], 300, "scheduled"⟩],
      next_job_id := 3 }

/-! ## Helper lemmas -/

theorem dictGet_dictSet_self (m : Uploads) (k : Int) (v : UploadSession) :
    dictGet (dictSet m k v) k = some v := by
  simp [dictGet, dictSet, List.find?_cons_of_pos]

theorem filter_idem {α : Type} (p : α → Bool) (l : List α) :
    (l.filter p).filter p = l.filter p := by
  induction l with
  | nil => rfl
  | cons a t ih => by_cases h : p a <;> simp [h, ih]

theorem mark_job_done_idem (db : DB) (job_id : Nat) :
    mark_job_done_sync (mark_job_done_sync db job_id) job_id
      = mark_job_done_sync db job_id := by
  unfold mark_job_done_sync
  simp only [List.map_map]
  congr 1
  apply List.map_congr_left
  intro j _
  by_cases hj : (j.id == job_id) = true <;> simp [Function.comp, hj]

/-! ## Claims -/

/-- Claim C8: at most one staging buffer exists at a time; calling begin
while a buffer already exists replaces it with a new empty buffer,
discarding all previously staged items, for any prior buffer contents:
whatever `uploads` held for the operator before, after
`start_upload_session` the operator's buffer is fresh and empty. -/
theorem claim_C8_begin_replaces_buffer (uploads : Uploads) (owner_id : Int)
    (exclude_text : Bool) (now : Int) :
    dictGet (start_upload_session uploads owner_id exclude_text now) owner_id
      = some { messages := [], exclude_text := exclude_text,
               created_at := now, finalize_requested := false,
               protect_choice := none } :=
  dictGet_dictSet_self uploads owner_id _

/-- Claim C9 (counterexample): the claim says appending with no active
buffer fails with a `NoActiveBuffer` error result rather than silently
doing nothing; but `append_upload_message` (src/bot.py lines 591-594)
returns with the uploads dict unchanged and no error channel at all —
exactly the silent no-op the claim denies — while the spec contract
`append_spec` returns the error. -/
theorem claim_C9_counterexample :
    append_upload_message [] 7 msgPhotoEx = ([] : Uploads) ∧
    append_spec [] 7 msgPhotoEx = .error .noActiveBuffer :=
  ⟨rfl, rfl⟩

/-- Claim C9 (amended): appending an item when no active staging buffer
exists for the operator silently returns with the staging state unchanged
and signals no error. -/
theorem claim_C9_amended (uploads : Uploads) (owner_id : Int)
    (msg : StagedMsg) (h : dictGet uploads owner_id = none) :
    append_upload_message uploads owner_id msg = uploads := by
  simp [append_upload_message, h]

/-- Witness for the amended C9 theorem at a concrete input. -/
theorem claim_C9_witness :
    dictGet ([] : Uploads) 7 = none ∧
    append_upload_message [] 7 msgTextEx = ([] : Uploads) :=
  ⟨rfl, claim_C9_amended [] 7 msgTextEx rfl⟩

/-- Claim C6 (counterexample): the claim says every file of a
protect=true session sent to a requester other than the operator uses
the protected send path; but a stored `text` file of a protect=true
session delivered to requester 2 (owner is 1) is sent by `send_message`
with no content protection (src/bot.py lines 710-713). -/
theorem claim_C6_counterexample :
    (deliver_file 2 1 true (some 500) true fileTextEx).protect_content
        = false ∧
    fileTextEx.file_type = "text" ∧ (2 : Int) ≠ 1 :=
  ⟨rfl, rfl, by decide⟩

/-- Claim C6 (amended): content protection is applied exactly on the
vault copy path: a delivered message has `protect_content` set iff the
file is not a text row, the vault reference is usable, the vault copy
call succeeds, the session's protect flag is set and the requester is
not the session owner.  In particular the operator always receives
unprotected copies, and text rows and fallback raw-file-id sends are
always unprotected. -/
theorem claim_C6_amended (requester_id session_owner : Int)
    (protect_flag : Bool) (vault_chat_id : Option Int) (copy_ok : Bool)
    (f : FileRow) :
    (deliver_file requester_id session_owner protect_flag vault_chat_id
        copy_ok f).protect_content
      = (!(f.file_type == "text") &&
         (truthyOptInt vault_chat_id && truthyOptInt f.vault_msg_id &&
           copy_ok) &&
         protect_flag && !(requester_id == session_owner)) := by
  unfold deliver_file
  cases ht : f.file_type == "text" <;>
    cases hv :
      truthyOptInt vault_chat_id && truthyOptInt f.vault_msg_id &&
        copy_ok <;>
      simp [ht, hv]
  all_goals repeat' split
  all_goals rfl

/-- Claim C3 (counterexample): the claim says `execute` loads the
persisted record and is a no-op when its status is already `done`; but
`execute_delete_job` (src/bot.py lines 518-548) never consults the
persisted status: with the job persisted as `done`, executing it still
issues a delete attempt to the transport. -/
theorem claim_C3_counterexample :
    botStateEx.db.delete_jobs.map (fun j => j.status) = ["done"] ∧
    (execute_delete_job botStateEx 1 jobRowEx).2 = [(5, 10)] := by
  exact ⟨rfl, rfl⟩

/-- Claim C3 (amended): `execute` does not check the persisted status; it
unconditionally re-attempts a best-effort delete of every listed message
(individual failures are swallowed) and re-marks the row done.  It is
nevertheless idempotent on the observable state: executing the same
action twice yields exactly the state — and the same per-call attempt
list — as executing it once, and no error propagates. -/
theorem claim_C3_amended (st : BotState) (job_id : Nat)
    (row : DeleteJobRow) :
    (execute_delete_job (execute_delete_job st job_id row).1 job_id
        row).1 = (execute_delete_job st job_id row).1 ∧
    (execute_delete_job (execute_delete_job st job_id row).1 job_id
        row).2 = (execute_delete_job st job_id row).2 := by
  constructor
  · simp only [execute_delete_job]
    rw [mark_job_done_idem, filter_idem]
    congr 1
    rw [List.map_map]
    apply List.map_congr_left
    intro p _
    by_cases hp : (p.1 == row.target_chat_id) = true
    · simp [Function.comp, hp, filter_idem]
    · simp [Function.comp, hp]
  · rfl

theorem finalize_items_sessions (sid : Nat) (ex : Bool) :
    ∀ (msgs : List StagedMsg) (db : DB) (idx : Nat) (vmsg : Int)
      (cok aok : List Bool),
      (finalize_items db sid ex msgs idx vmsg cok aok).1.sessions
          = db.sessions ∧
      (finalize_items db sid ex msgs idx vmsg cok aok).1.next_session_id
          = db.next_session_id := by
  intro msgs
  induction msgs with
  | nil =>
      intro db idx vmsg cok aok
      simp [finalize_items]
  | cons m rest ih =>
      intro db idx vmsg cok aok
      simp only [finalize_items]
      by_cases hsk : classify_item ex m = ItemAction.skip
      · simp [hsk, ih]
      · cases hc : cok.headD true
        · simp [hsk, hc, ih]
        · cases ha : aok.headD true
          · simp [hsk, hc, ha, ih]
          · simp [hsk, hc, ha, add_file_sync, ih]

theorem finalize_items_no_clear (sid : Nat) (ex : Bool) :
    ∀ (msgs : List StagedMsg) (db : DB) (idx : Nat) (vmsg : Int)
      (cok aok : List Bool),
      FinEvent.clearBuffer ∉
        (finalize_items db sid ex msgs idx vmsg cok aok).2.2 := by
  intro msgs
  induction msgs with
  | nil =>
      intro db idx vmsg cok aok
      simp [finalize_items]
  | cons m rest ih =>
      intro db idx vmsg cok aok
      simp only [finalize_items]
      by_cases hsk : classify_item ex m = ItemAction.skip
      · simp [hsk, ih]
      · cases hc : cok.headD true
        · simp [hsk, hc, ih]
        · cases ha : aok.headD true
          · simp [hsk, hc, ha, ih]
          · simp [hsk, hc, ha, ih]

theorem finalize_items_filter_map (sid : Nat) (ex : Bool) :
    ∀ (msgs : List StagedMsg) (db : DB) (idx : Nat) (vmsg : Int)
      (cok aok : List Bool),
      ((finalize_items db sid ex msgs idx vmsg cok aok).1.files.filter
          (fun f => f.session_id == sid)).map (fun f => f.original_msg_id)
        = (db.files.filter (fun f => f.session_id == sid)).map
            (fun f => f.original_msg_id)
          ++ (successfulStaged ex msgs cok aok).map
              (fun m => intOrNone m.message_id) := by
  intro msgs
  induction msgs with
  | nil =>
      intro db idx vmsg cok aok
      simp [finalize_items, successfulStaged]
  | cons m rest ih =>
      intro db idx vmsg cok aok
      simp only [finalize_items, successfulStaged]
      by_cases hsk : classify_item ex m = ItemAction.skip
      · simp [hsk, ih]
      · cases hc : cok.headD true
        · simp [hsk, hc, ih]
        · cases ha : aok.headD true
          · simp [hsk, hc, ha, ih]
          · simp only [hsk, hc, ha, if_false, if_true, Bool.and_self,
              if_neg, ite_true, ite_false]
            rw [ih]
            simp [add_file_sync, List.filter_append]

theorem finalize_items_pairwise (sid : Nat) (ex : Bool) :
    ∀ (msgs : List StagedMsg) (db : DB) (idx : Nat) (vmsg : Int)
      (cok aok : List Bool),
      db.files.Pairwise (fun a b => a.id < b.id) →
      (∀ f ∈ db.files, f.id < db.next_file_id) →
      (finalize_items db sid ex msgs idx vmsg cok aok).1.files.Pairwise
          (fun a b => a.id < b.id) := by
  intro msgs
  induction msgs with
  | nil =>
      intro db idx vmsg cok aok h1 _
      simpa [finalize_items] using h1
  | cons m rest ih =>
      intro db idx vmsg cok aok h1 h2
      simp only [finalize_items]
      by_cases hsk : classify_item ex m = ItemAction.skip
      · simp only [hsk, if_true, ite_true]
        exact ih db (idx + 1) vmsg cok.tail aok.tail h1 h2
      · cases hc : cok.headD true
        · simp only [hsk, hc, if_false, ite_false, if_neg, Bool.false_eq_true]
          exact ih db (idx + 1) vmsg cok.tail aok.tail h1 h2
        · cases ha : aok.headD true
          · simp only [hsk, hc, ha, if_false, ite_false, if_neg,
              Bool.false_eq_true, if_true, ite_true]
            exact ih db (idx + 1) (vmsg + 1) cok.tail aok.tail h1 h2
          · simp only [hsk, hc, ha, if_true, ite_true, if_neg]
            apply ih
            · simp only [add_file_sync]
              rw [List.pairwise_append]
              refine ⟨h1, List.pairwise_singleton _ _, ?_⟩
              intro a ha2 b hb
              rw [List.mem_singleton] at hb
              subst hb
              exact h2 a ha2
            · intro f hf
              simp only [add_file_sync, List.mem_append,
                List.mem_singleton] at hf
              rcases hf with hf | rfl
              · exact Nat.lt_succ_of_lt (h2 f hf)
              · exact Nat.lt_succ_self _

theorem insertById_sorted (f : FileRow) (l : List FileRow)
    (h : ∀ g ∈ l, f.id < g.id) : insertById f l = f :: l := by
  cases l with
  | nil => rfl
  | cons g gs =>
      have hle : f.id ≤ g.id := le_of_lt (h g (List.mem_cons_self g gs))
      simp [insertById, hle]

theorem orderByFileId_eq_self (l : List FileRow)
    (h : l.Pairwise (fun a b => a.id < b.id)) : orderByFileId l = l := by
  induction l with
  | nil => rfl
  | cons f fs ih =>
      rw [List.pairwise_cons] at h
      simp only [orderByFileId]
      rw [ih h.2, insertById_sorted f fs h.1]

theorem successfulStaged_sublist (ex : Bool) :
    ∀ (msgs : List StagedMsg) (cok aok : List Bool),
      (successfulStaged ex msgs cok aok).Sublist msgs := by
  intro msgs
  induction msgs with
  | nil => intro cok aok; simp [successfulStaged]
  | cons m rest ih =>
      intro cok aok
      simp only [successfulStaged]
      by_cases hsk : classify_item ex m = ItemAction.skip
      · simp only [hsk, ite_true, if_true]
        exact List.Sublist.cons m (ih cok.tail aok.tail)
      · cases hca : cok.headD true && aok.headD true
        · simp only [hsk, hca, ite_false, if_false, if_neg,
            Bool.false_eq_true]
          exact List.Sublist.cons m (ih cok.tail aok.tail)
        · simp only [hsk, hca, ite_true, if_true, if_neg]
          exact List.Sublist.cons₂ m (ih cok.tail aok.tail)

theorem deliver_file_orig (requester_id session_owner : Int) (pf : Bool)
    (v : Option Int) (ok : Bool) (f : FileRow) :
    (deliver_file requester_id session_owner pf v ok f).orig
      = f.original_msg_id := by
  unfold deliver_file
  repeat' split
  all_goals rfl

theorem deliver_session_files_map_orig (requester_id session_owner : Int)
    (pf : Bool) (v : Option Int) :
    ∀ (files : List FileRow) (oks : List Bool),
      (deliver_session_files requester_id session_owner pf v oks
          files).map (fun s => s.orig)
        = files.map (fun f => f.original_msg_id) := by
  intro files
  induction files with
  | nil => intro oks; rfl
  | cons f fs ih =>
      intro oks
      simp [deliver_session_files, deliver_file_orig, ih]

theorem gate_scan_ne_pass (l : List ChanOutcome) :
    ∀ unres : Bool, ((∃ c ∈ l, c.indeterminate = true) ∨ unres = true) →
      gate_scan l unres ≠ GateResult.pass := by
  induction l with
  | nil =>
      intro unres h
      rcases h with ⟨c, hc, _⟩ | h
      · simp at hc
      · simp [gate_scan, h]
  | cons c rest ih =>
      intro unres h
      cases c with
      | unresolvable => simpa [gate_scan] using ih true (Or.inr rfl)
      | resolved lk =>
          cases lk with
          | badRequest => simp [gate_scan]
          | chatNotFound => simpa [gate_scan] using ih true (Or.inr rfl)
          | otherError => simpa [gate_scan] using ih true (Or.inr rfl)
          | member st =>
              by_cases hst : (st == "left" || st == "kicked") = true
              · simp [gate_scan, hst]
              · have h' :
                    (∃ c ∈ rest, c.indeterminate = true) ∨ unres = true := by
                  rcases h with ⟨c₂, hc₂, hind⟩ | h
                  · rcases List.mem_cons.mp hc₂ with rfl | hc₂
                    · simp [ChanOutcome.indeterminate] at hind
                    · exact Or.inl ⟨c₂, hc₂, hind⟩
                  · exact Or.inr h
                simpa [gate_scan, hst] using ih unres h'

theorem recovery_actions_cons (now : Int) (x : DeleteJobRow)
    (xs : List DeleteJobRow) :
    recovery_actions now (x :: xs)
      = (if x.status == "scheduled" then
           [if x.run_at ≤ now then RecoveryAction.executeNow x.id
            else RecoveryAction.rearm x.id x.run_at]
         else []) ++ recovery_actions now xs := by
  unfold recovery_actions
  by_cases hs : (x.status == "scheduled") = true <;> simp [hs]

theorem recovery_actions_id_free (now : Int) (i : Nat)
    (l : List DeleteJobRow) (h : ∀ x ∈ l, x.id ≠ i) :
    (recovery_actions now l).count (RecoveryAction.executeNow i) = 0 ∧
    ∀ t, RecoveryAction.rearm i t ∉ recovery_actions now l := by
  induction l with
  | nil => simp [recovery_actions]
  | cons x xs ih =>
      have hx : x.id ≠ i := h x (List.mem_cons_self x xs)
      have hx' : i ≠ x.id := Ne.symm hx
      have hxs := ih (fun y hy => h y (List.mem_cons_of_mem x hy))
      rw [recovery_actions_cons]
      by_cases hs : (x.status == "scheduled") = true
      · by_cases hr : x.run_at ≤ now
        · refine ⟨?_, ?_⟩
          · simp [hs, hr, List.count_cons, hx, hxs.1]
          · intro t
            simp [hs, hr, List.mem_cons, hxs.2 t, hx']
        · refine ⟨?_, ?_⟩
          · simp [hs, hr, List.count_cons, hxs.1]
          · intro t
            simp [hs, hr, List.mem_cons, hxs.2 t, hx']
      · simpa [hs] using hxs

theorem recovery_actions_exactly_once (now : Int) (l : List DeleteJobRow)
    (j : DeleteJobRow) (hn : (l.map (fun x => x.id)).Nodup) (hj : j ∈ l)
    (hs : j.status = "scheduled") :
    (j.run_at ≤ now →
      (recovery_actions now l).count (RecoveryAction.executeNow j.id) = 1 ∧
      ∀ t, RecoveryAction.rearm j.id t ∉ recovery_actions now l) ∧
    (¬ j.run_at ≤ now →
      RecoveryAction.rearm j.id j.run_at ∈ recovery_actions now l ∧
      (recovery_actions now l).count (RecoveryAction.executeNow j.id) = 0) := by
  induction l with
  | nil => cases hj
  | cons x xs ih =>
      rw [List.map_cons, List.nodup_cons] at hn
      obtain ⟨hxid, hnxs⟩ := hn
      rcases List.mem_cons.mp hj with rfl | hjxs
      · have hfree : ∀ y ∈ xs, y.id ≠ j.id := by
          intro y hy hEq
          exact hxid (hEq ▸ List.mem_map_of_mem _ hy)
        have hz := recovery_actions_id_free now j.id xs hfree
        rw [recovery_actions_cons]
        have hsb : (j.status == "scheduled") = true := by simp [hs]
        constructor
        · intro hr
          refine ⟨?_, ?_⟩
          · simp [hsb, hr, List.count_cons, hz.1]
          · intro t
            simp [hsb, hr, List.mem_cons, hz.2 t]
        · intro hr
          refine ⟨?_, ?_⟩
          · simp [hsb, hr, List.mem_cons]
          · simp [hsb, hr, List.count_cons, hz.1]
      · have hxj : x.id ≠ j.id := by
          intro hEq
          exact hxid (hEq ▸ List.mem_map_of_mem _ hjxs)
        have hxj' : j.id ≠ x.id := Ne.symm hxj
        have hih := ih hnxs hjxs
        rw [recovery_actions_cons]
        by_cases hsb : (x.status == "scheduled") = true
        · by_cases hr2 : x.run_at ≤ now
          · constructor
            · intro hr
              refine ⟨?_, ?_⟩
              · simp [hsb, hr2, List.count_cons, hxj, (hih.1 hr).1]
              · intro t
                simp [hsb, hr2, List.mem_cons, (hih.1 hr).2 t]
            · intro hr
              refine ⟨?_, ?_⟩
              · simp [hsb, hr2, List.mem_cons, (hih.2 hr).1]
              · simp [hsb, hr2, List.count_cons, hxj, (hih.2 hr).2]
          · constructor
            · intro hr
              refine ⟨?_, ?_⟩
              · simp [hsb, hr2, List.count_cons, (hih.1 hr).1]
              · intro t
                simp [hsb, hr2, List.mem_cons, (hih.1 hr).2 t, hxj']
            · intro hr
              refine ⟨?_, ?_⟩
              · simp [hsb, hr2, List.mem_cons, (hih.2 hr).1]
              · simp [hsb, hr2, List.count_cons, (hih.2 hr).2]
        · constructor
          · intro hr
            refine ⟨?_, ?_⟩
            · simpa [hsb] using (hih.1 hr).1
            · intro t
              simpa [hsb] using (hih.1 hr).2 t
          · intro hr
            refine ⟨?_, ?_⟩
            · simpa [hsb] using (hih.2 hr).1
            · simpa [hsb] using (hih.2 hr).2

/-- Claim C4: if any required-membership channel cannot be resolved or
the requester's membership cannot be determined, the gate fails with the
must-join or could-not-verify reply (both carry a Retry button) and no
file is delivered; a lookup failure is never treated as membership.  The
hypothesis `chans.length ≤ 3` reflects both the `/setforcechannel` cap of
three required channels and the gate's own `forced[:3]` truncation. -/
theorem claim_C4_gate_fails_closed (chans : List ChanOutcome)
    (requester_id session_owner : Int) (protect_flag : Bool)
    (vault_chat_id : Option Int) (oks : List Bool) (files : List FileRow)
    (hlen : chans.length ≤ 3)
    (hind : ∃ c ∈ chans, c.indeterminate = true) :
    ((cmd_start_gate_deliver chans requester_id session_owner protect_flag
        vault_chat_id oks files).1 = GateResult.mustJoin ∨
     (cmd_start_gate_deliver chans requester_id session_owner protect_flag
        vault_chat_id oks files).1 = GateResult.unverifiable) ∧
    (cmd_start_gate_deliver chans requester_id session_owner protect_flag
        vault_chat_id oks files).2 = [] := by
  have hg : forced_gate chans ≠ GateResult.pass := by
    unfold forced_gate
    rw [List.take_of_length_le hlen]
    exact gate_scan_ne_pass chans false (Or.inl hind)
  unfold cmd_start_gate_deliver
  cases hfg : forced_gate chans with
  | pass => exact absurd hfg hg
  | mustJoin => simp
  | unverifiable => simp

/-- Witness for the C4 theorem at a concrete unresolvable channel. -/
theorem claim_C4_witness :
    ((cmd_start_gate_deliver [ChanOutcome.unresolvable] 2 1 true (some 500)
        [true] [fileTextEx]).1 = GateResult.mustJoin ∨
     (cmd_start_gate_deliver [ChanOutcome.unresolvable] 2 1 true (some 500)
        [true] [fileTextEx]).1 = GateResult.unverifiable) ∧
    (cmd_start_gate_deliver [ChanOutcome.unresolvable] 2 1 true (some 500)
        [true] [fileTextEx]).2 = [] :=
  claim_C4_gate_fails_closed [ChanOutcome.unresolvable] 2 1 true (some 500)
    [true] [fileTextEx] (by decide)
    ⟨ChanOutcome.unresolvable, by decide, by decide⟩

/-- Claim C7: after a restart, recovery loads exactly the persisted rows
with status `scheduled`; a scheduled action whose due time is in the past
is executed exactly once during recovery (inline, not re-armed), and one
with a future due time is re-armed at its due time.  The persisted table
is authoritative: the recovery actions are a function of the store alone. -/
theorem claim_C7_restart_recovery (now : Int) (db : DB) (j : DeleteJobRow)
    (hj : j ∈ db.delete_jobs) (hs : j.status = "scheduled")
    (hn : (db.delete_jobs.map (fun x => x.id)).Nodup) :
    (j.run_at ≤ now →
      (restore_pending_jobs_and_schedule now db).count
          (RecoveryAction.executeNow j.id) = 1 ∧
      ∀ t, RecoveryAction.rearm j.id t ∉
          restore_pending_jobs_and_schedule now db) ∧
    (¬ j.run_at ≤ now →
      RecoveryAction.rearm j.id j.run_at ∈
          restore_pending_jobs_and_schedule now db ∧
      (restore_pending_jobs_and_schedule now db).count
          (RecoveryAction.executeNow j.id) = 0) := by
  have hrw : restore_pending_jobs_and_schedule now db
      = recovery_actions now db.delete_jobs := rfl
  rw [hrw]
  exact recovery_actions_exactly_once now db.delete_jobs j hn hj hs

/-- Witness for the C7 theorem: one overdue and one future job. -/
theorem claim_C7_witness :
    (restore_pending_jobs_and_schedule 100 dbJobsEx).count
        (RecoveryAction.executeNow 1) = 1 ∧
    RecoveryAction.rearm 1 50 ∉
        restore_pending_jobs_and_schedule 100 dbJobsEx ∧
    RecoveryAction.rearm 2 300 ∈
        restore_pending_jobs_and_schedule 100 dbJobsEx ∧
    (restore_pending_jobs_and_schedule 100 dbJobsEx).count
        (RecoveryAction.executeNow 2) = 0 := by
  have h1 := claim_C7_restart_recovery 100 dbJobsEx
    ⟨1, some 1, 5, [10, 11], 50, "scheduled"⟩ (by decide) rfl (by decide)
  have h2 := claim_C7_restart_recovery 100 dbJobsEx
    ⟨2, some 2, 6, [20], 300, "scheduled"⟩ (by decide) rfl (by decide)
  exact ⟨(h1.1 (by decide)).1, (h1.1 (by decide)).2 50,
    (h2.2 (by decide)).1, (h2.2 (by decide)).2⟩

/-- Claim C10: the retention input is accepted exactly when the text
parses as a (finite) float whose truncation toward zero lies within
[0, 10080]; the stored value is that truncation (so decimal strings like
"7.9" are accepted as 7); on rejection the handler replies with the
re-prompt and returns with the staging buffer and the store unchanged. -/
theorem claim_C10_minutes_parse (parsed : Option ℚ) (uploads : Uploads)
    (owner_id : Int) (db : DB) (upload_channel : Option Int)
    (bot_username : String) (now : Int) (vmsg0 : Int)
    (oracle : FinalizeOracle) :
    (∀ q m, parsed = some q →
      (receive_autodel_minutes_parse parsed = some m ↔
        m = truncTowardZero q ∧ MIN_AUTO_DELETE ≤ m ∧
          m ≤ MAX_AUTO_DELETE)) ∧
    (receive_autodel_minutes_parse parsed = none →
      receive_autodel_minutes parsed uploads owner_id db upload_channel
          bot_username now vmsg0 oracle
        = ⟨db, uploads, [FinEvent.replyInvalidMinutes]⟩) := by
  constructor
  · rintro q m rfl
    unfold receive_autodel_minutes_parse
    dsimp only
    by_cases h : truncTowardZero q < MIN_AUTO_DELETE ∨
        truncTowardZero q > MAX_AUTO_DELETE
    · rw [if_pos h]
      constructor
      · intro h'
        cases h'
      · rintro ⟨rfl, h1, h2⟩
        omega
    · rw [if_neg h]
      push_neg at h
      constructor
      · intro h'
        injection h' with h''
        exact ⟨h''.symm, by omega, by omega⟩
      · rintro ⟨rfl, _, _⟩
        rfl
  · intro h
    simp only [receive_autodel_minutes, h]

/-- Witness for the C10 theorem: "7.9" is accepted as 7 minutes, and an
unparsable input leaves buffer and store untouched. -/
theorem claim_C10_witness :
    receive_autodel_minutes_parse (some (mkRat 79 10)) = some 7 ∧
    receive_autodel_minutes none [] 7 DB.empty (some 500) "mybot" 0 1000
        oracleEx = ⟨DB.empty, [], [FinEvent.replyInvalidMinutes]⟩ := by
  constructor
  · exact ((claim_C10_minutes_parse (some (mkRat 79 10)) [] 7 DB.empty
      (some 500) "mybot" 0 1000 oracleEx).1 (mkRat 79 10) 7 rfl).mpr
      ⟨by decide, by decide, by decide⟩
  · exact (claim_C10_minutes_parse none [] 7 DB.empty (some 500) "mybot" 0
      1000 oracleEx).2 rfl

theorem insert_session_sync_fst_files (db : DB) (a : Int) (p : Bool)
    (m : Int) (t : String) (hc hm : Int) (dl : String) (nw : Int) :
    (insert_session_sync db a p m t hc hm dl nw).1.files = db.files := rfl

theorem insert_session_sync_fst_next_file (db : DB) (a : Int) (p : Bool)
    (m : Int) (t : String) (hc hm : Int) (dl : String) (nw : Int) :
    (insert_session_sync db a p m t hc hm dl nw).1.next_file_id
      = db.next_file_id := rfl

theorem insert_session_sync_fst_next_session (db : DB) (a : Int) (p : Bool)
    (m : Int) (t : String) (hc hm : Int) (dl : String) (nw : Int) :
    (insert_session_sync db a p m t hc hm dl nw).1.next_session_id
      = db.next_session_id + 1 := rfl

theorem insert_session_sync_fst_sessions (db : DB) (a : Int) (p : Bool)
    (m : Int) (t : String) (hc hm : Int) (dl : String) (nw : Int) :
    (insert_session_sync db a p m t hc hm dl nw).1.sessions
      = db.sessions ++
        [⟨db.next_session_id, a, nw, p, m, t, false, some hm, some hc, dl⟩] :=
  rfl

theorem insert_session_sync_snd (db : DB) (a : Int) (p : Bool) (m : Int)
    (t : String) (hc hm : Int) (dl : String) (nw : Int) :
    (insert_session_sync db a p m t hc hm dl nw).2 = db.next_session_id :=
  rfl

theorem update_deeplink_sync_files (db : DB) (sid : Nat) (dl : String)
    (hm hc : Int) :
    (update_deeplink_sync db sid dl hm hc).files = db.files := rfl

theorem update_deeplink_sync_next (db : DB) (sid : Nat) (dl : String)
    (hm hc : Int) :
    (update_deeplink_sync db sid dl hm hc).next_session_id
      = db.next_session_id := rfl

theorem update_deeplink_mem (db : DB) (sid : Nat) (dl : String)
    (hm hc : Int) (s0 : SessionRow) (hmem : s0 ∈ db.sessions)
    (hid : s0.id = sid) :
    ∃ s ∈ (update_deeplink_sync db sid dl hm hc).sessions,
      s.id = sid ∧ s.deep_link = dl := by
  unfold update_deeplink_sync
  dsimp only
  refine ⟨_, List.mem_map_of_mem _ hmem, ?_, ?_⟩
  · rw [hid]
    simp
  · rw [hid]
    simp

theorem session_files_after_finalize (db : DB) (sid : Nat) (ex : Bool)
    (msgs : List StagedMsg) (idx : Nat) (vmsg : Int) (cok aok : List Bool)
    (dl : String) (hm hc : Int)
    (h1 : db.files.Pairwise (fun a b => a.id < b.id))
    (h2 : ∀ f ∈ db.files, f.id < db.next_file_id)
    (h3 : db.files.filter (fun f => f.session_id == sid) = []) :
    (get_session_files_sync
        (update_deeplink_sync
          (finalize_items db sid ex msgs idx vmsg cok aok).1 sid dl hm hc)
        sid).map (fun f => f.original_msg_id)
      = (successfulStaged ex msgs cok aok).map
          (fun m => intOrNone m.message_id) := by
  unfold get_session_files_sync
  rw [update_deeplink_sync_files]
  have hpair :
      ((finalize_items db sid ex msgs idx vmsg cok aok).1.files.filter
          (fun f => f.session_id == sid)).Pairwise
        (fun a b => a.id < b.id) :=
    List.Pairwise.sublist (List.filter_sublist _)
      (finalize_items_pairwise sid ex msgs db idx vmsg cok aok h1 h2)
  rw [orderByFileId_eq_self _ hpair]
  rw [finalize_items_filter_map sid ex msgs db idx vmsg cok aok, h3]
  simp

/-- Claim C2 (counterexample): the claim says the Session row and its
File rows are the last mutation before buffer clearing, persisted only
after all staged items have been copied into the vault, so that a
persistence failure fails finalize cleanly leaving the buffer intact.
In a successful run the `insertSession` store write happens strictly
before the first vault copy; and when persisting the only File row fails,
no file row exists yet finalize still completes and clears the buffer. -/
theorem claim_C2_counterexample :
    finalizeEx.events
        = [FinEvent.sendHeader, FinEvent.insertSession 1,
           FinEvent.editHeader, FinEvent.copyItem 0, FinEvent.addFile 0 1,
           FinEvent.updateDeepLink, FinEvent.backupDb,
           FinEvent.clearBuffer, FinEvent.replyFinalized] ∧
    finalizeEx.events.indexOf (FinEvent.insertSession 1)
        < finalizeEx.events.indexOf (FinEvent.copyItem 0) ∧
    finalizeAddFailEx.db.files = [] ∧
    FinEvent.clearBuffer ∈ finalizeAddFailEx.events := by
  decide

/-- Claim C2 (amended): the Session row is inserted before the staged
items are copied into the vault and File rows are written as each copy
succeeds (a File-row persistence failure is swallowed and the item
skipped); but a persistence failure of the session insert or of the
final deep-link update does fail finalize before the buffer is cleared,
leaving the staging buffer intact for retry. -/
theorem claim_C2_amended (parsed : Option ℚ) (uploads : Uploads)
    (owner_id : Int) (db : DB) (upload_channel : Option Int)
    (bot_username : String) (now : Int) (vmsg0 : Int)
    (oracle : FinalizeOracle)
    (hfail : oracle.insert_ok = false ∨ oracle.update_ok = false) :
    (receive_autodel_minutes parsed uploads owner_id db upload_channel
        bot_username now vmsg0 oracle).uploads = uploads ∧
    FinEvent.clearBuffer ∉ (receive_autodel_minutes parsed uploads
        owner_id db upload_channel bot_username now vmsg0 oracle).events := by
  unfold receive_autodel_minutes
  cases hp : receive_autodel_minutes_parse parsed with
  | none => simp
  | some mins =>
      cases hu : dictGet uploads owner_id with
      | none => simp
      | some upload =>
          cases hch : truthyOptInt upload_channel with
          | false => simp
          | true =>
              cases hh : oracle.header_ok with
              | false => simp
              | true =>
                  cases hi : oracle.insert_ok with
                  | false => simp
                  | true =>
                      have hupd : oracle.update_ok = false := by
                        rcases hfail with h | h
                        · rw [hi] at h
                          cases h
                        · exact h
                      rw [hupd]
                      refine ⟨rfl, ?_⟩
                      simp [finalize_items_no_clear]

/-- Witness for the amended C2 theorem: a failing session insert leaves
the staging buffer untouched. -/
theorem claim_C2_witness :
    (receive_autodel_minutes (some (mkRat 5 1)) [(7, uploadEx)] 7 DB.empty
        (some 500) "mybot" 0 1000
        { oracleEx with insert_ok := false }).uploads = [(7, uploadEx)] ∧
    FinEvent.clearBuffer ∉ (receive_autodel_minutes (some (mkRat 5 1))
        [(7, uploadEx)] 7 DB.empty (some 500) "mybot" 0 1000
        { oracleEx with insert_ok := false }).events :=
  claim_C2_amended (some (mkRat 5 1)) [(7, uploadEx)] 7 DB.empty (some 500)
    "mybot" 0 1000 { oracleEx with insert_ok := false } (Or.inl rfl)

/-- Claim C1 (counterexample): the claim says the access token in the
public link is unique, unguessable, minted from a cryptographically
strong random source, and not the internal sequential id.  Two
consecutive finalizes produce links whose start payloads are exactly the
decimal renderings of the sessions' sequential primary keys 1 and 2 —
the token IS the sequential id (src/bot.py lines 841-843). -/
theorem claim_C1_counterexample :
    finalizeEx.db.sessions.map (fun s => (s.id, s.deep_link))
        = [(1, "https://t.me/mybot?start=1")] ∧
    finalizeEx2.db.sessions.map (fun s => (s.id, s.deep_link))
        = [(1, "https://t.me/mybot?start=1"),
           (2, "https://t.me/mybot?start=2")] := by
  decide

/-- Claim C1 (amended): the externally facing access payload embedded in
the public link of a finalized session is the decimal rendering of the
session's internal sequential id itself (`?start=<session_id>`), and ids
are allocated sequentially: no separately minted random token exists. -/
theorem claim_C1_amended (parsed : Option ℚ) (uploads : Uploads)
    (owner_id : Int) (db : DB) (upload_channel : Option Int)
    (bot_username : String) (now : Int) (vmsg0 : Int)
    (oracle : FinalizeOracle) (mins : ℤ) (upload : UploadSession)
    (hp : receive_autodel_minutes_parse parsed = some mins)
    (hu : dictGet uploads owner_id = some upload)
    (hch : truthyOptInt upload_channel = true)
    (hh : oracle.header_ok = true) (hi : oracle.insert_ok = true)
    (hupd : oracle.update_ok = true) :
    (∃ s ∈ (receive_autodel_minutes parsed uploads owner_id db
        upload_channel bot_username now vmsg0 oracle).db.sessions,
      s.id = db.next_session_id ∧
      s.deep_link = deep_link_for bot_username db.next_session_id) ∧
    (receive_autodel_minutes parsed uploads owner_id db upload_channel
        bot_username now vmsg0 oracle).db.next_session_id
      = db.next_session_id + 1 := by
  unfold receive_autodel_minutes
  rw [hp, hu, hch, hh, hi, hupd]
  simp only [Bool.not_true, Bool.false_eq_true, if_false]
  simp only [insert_session_sync_snd]
  constructor
  · refine update_deeplink_mem _ _ _ _ _
      ⟨db.next_session_id, owner_id, now,
        decide (upload.protect_choice.getD 0 ≠ 0), mins, "Untitled",
        false, some vmsg0, some (upload_channel.getD 0), ""⟩ ?_ rfl
    rw [(finalize_items_sessions _ _ _ _ _ _ _ _).1,
      insert_session_sync_fst_sessions]
    exact List.mem_append_right _ (List.mem_cons_self _ _)
  · rw [update_deeplink_sync_next,
      (finalize_items_sessions _ _ _ _ _ _ _ _).2,
      insert_session_sync_fst_next_session]

/-- Witness for the amended C1 theorem. -/
theorem claim_C1_witness :
    (∃ s ∈ finalizeEx.db.sessions,
      s.id = 1 ∧ s.deep_link = deep_link_for "mybot" 1) ∧
    finalizeEx.db.next_session_id = 2 := by
  have h := claim_C1_amended (some (mkRat 5 1)) [(7, uploadEx)] 7 DB.empty
    (some 500) "mybot" 0 1000 oracleEx 5 uploadEx (by decide) (by decide)
    rfl rfl rfl rfl
  exact h

/-- Claim C5: for any session finalized from any staged sequence (with
any per-item copy/store successes), the stored file rows of that session,
read back in `ORDER BY id` order and redelivered by the delivery loop,
reproduce exactly the successfully copied staged items in their original
staging order (a sublist of the staged sequence, for any N ≥ 0). -/
theorem claim_C5_order_preservation (parsed : Option ℚ) (uploads : Uploads)
    (owner_id : Int) (db : DB) (upload_channel : Option Int)
    (bot_username : String) (now : Int) (vmsg0 : Int)
    (oracle : FinalizeOracle) (mins : ℤ) (upload : UploadSession)
    (hwf : DBwf db)
    (hp : receive_autodel_minutes_parse parsed = some mins)
    (hu : dictGet uploads owner_id = some upload)
    (hch : truthyOptInt upload_channel = true)
    (hh : oracle.header_ok = true) (hi : oracle.insert_ok = true)
    (hupd : oracle.update_ok = true) :
    ((get_session_files_sync (receive_autodel_minutes parsed uploads
        owner_id db upload_channel bot_username now vmsg0 oracle).db
        db.next_session_id).map (fun f => f.original_msg_id)
      = (successfulStaged upload.exclude_text upload.messages
          oracle.copy_ok oracle.addfile_ok).map
          (fun m => intOrNone m.message_id)) ∧
    (successfulStaged upload.exclude_text upload.messages oracle.copy_ok
        oracle.addfile_ok).Sublist upload.messages ∧
    ∀ (requester_id session_owner : Int) (protect_flag : Bool)
      (vault_chat_id : Option Int) (oks : List Bool),
      (deliver_session_files requester_id session_owner protect_flag
          vault_chat_id oks (get_session_files_sync
            (receive_autodel_minutes parsed uploads owner_id db
              upload_channel bot_username now vmsg0 oracle).db
            db.next_session_id)).map (fun s => s.orig)
        = (get_session_files_sync (receive_autodel_minutes parsed uploads
            owner_id db upload_channel bot_username now vmsg0 oracle).db
            db.next_session_id).map (fun f => f.original_msg_id) := by
  obtain ⟨hpw, hbound, hsess⟩ := hwf
  refine ⟨?_, successfulStaged_sublist _ _ _ _,
    fun rq ow pf v oks => deliver_session_files_map_orig rq ow pf v _ oks⟩
  unfold receive_autodel_minutes
  rw [hp, hu, hch, hh, hi, hupd]
  simp only [Bool.not_true, Bool.false_eq_true, if_false]
  simp only [insert_session_sync_snd]
  rw [session_files_after_finalize]
  · rw [insert_session_sync_fst_files]
    exact hpw
  · intro f hf
    rw [insert_session_sync_fst_next_file]
    rw [insert_session_sync_fst_files] at hf
    exact hbound f hf
  · rw [insert_session_sync_fst_files, List.filter_eq_nil_iff]
    intro f hf
    simp only [beq_iff_eq]
    exact Nat.ne_of_lt (hsess f hf)

/-- Witness for the C5 theorem: one staged photo is stored and
redelivered in order. -/
theorem claim_C5_witness :
    ((get_session_files_sync finalizeEx.db 1).map
        (fun f => f.original_msg_id)
      = (successfulStaged false [msgPhotoEx] [true] [true]).map
          (fun m => intOrNone m.message_id)) ∧
    (successfulStaged false [msgPhotoEx] [true] [true]).Sublist
        [msgPhotoEx] ∧
    (deliver_session_files 2 1 true (some 500) [true]
        (get_session_files_sync finalizeEx.db 1)).map (fun s => s.orig)
      = (get_session_files_sync finalizeEx.db 1).map
          (fun f => f.original_msg_id) := by
  have h := claim_C5_order_preservation (some (mkRat 5 1)) [(7, uploadEx)]
    7 DB.empty (some 500) "mybot" 0 1000 oracleEx 5 uploadEx (by decide)
    (by decide) (by decide) rfl rfl rfl rfl
  exact ⟨h.1, h.2.1, h.2.2 2 1 true (some 500) [true]⟩

end VaultBot
